import Mathlib

/-!
Verification development for the zentask-board client sync engine and its
password-based content-encryption layer.

The definitions below are a shallow embedding of the TypeScript sources:

* the content cipher (`src/utils/crypto.ts`): `encrypt`, `decrypt`,
  `generatePasswordHash`, `isEncryptedContent`, `encryptContent`,
  `decryptContent`;
* the sync service (`src/services/feishuService.ts`): `encryptDataForSync`,
  `saveUserDataImmediate`, `queueOfflineData`, `processOfflineQueue`,
  `saveUserDataDebounced`;
* the serverless full-snapshot handler (`src/api/feishu/sync.ts`):
  `handlePost`;
* the App component's mutation handlers and refresh logic (`App.tsx`):
  `debouncedSync`, `deleteTask`, `updateTask`, `deleteColumn`,
  `handleRefresh`, the `UnlockDialog` `onUnlock` callback and
  `unlockDocumentFolder`.

External browser / platform primitives (Web Crypto AES-GCM and PBKDF2,
SHA-256 digests, `btoa`/`atob`, `TextEncoder`/`TextDecoder`, `fetch`,
timers, `localStorage`) are not part of the repository; they are modelled
by executable ideal functionalities that keep exactly the interface
properties the code relies on (losslessness of the codecs, determinism of
key derivation, authenticated encryption that fails under a different
key). Randomness (fresh salts and IVs) and clock reads are passed in as
explicit parameters. Network calls are modelled by explicit
success/failure oracles, and `localStorage` by an explicit record of the
slots the code touches.
-/

namespace ZenTask

/-! ## Bytes and text encoding

Bytes are natural numbers; well-formed byte lists have all entries < 256.
`TextEncoder`/`TextDecoder` (external) are modelled as a lossless
fixed-width encoding of Unicode code points (3 bytes per code point,
enough since code points are < 2^21). -/

/-- Model of `TextEncoder.encode` for a single character: a lossless
3-byte big-endian encoding of the code point. -/
def charToBytes (c : Char) : List Nat :=
  [c.toNat / 65536, c.toNat / 256 % 256, c.toNat % 256]

/-- Model of `stringToArrayBuffer` (TextEncoder): bytes of all characters. -/
def stringToBytes (s : String) : List Nat :=
  s.data.flatMap charToBytes

/-- Inverse of the 3-byte character encoding; `none` on malformed input. -/
def bytesToChars : List Nat → Option (List Char)
  | [] => some []
  | b0 :: b1 :: b2 :: rest =>
    (bytesToChars rest).map (fun cs => Char.ofNat (b0 * 65536 + b1 * 256 + b2) :: cs)
  | _ => none

/-- Model of `arrayBufferToString` (TextDecoder). -/
def bytesToString (bs : List Nat) : Option String :=
  (bytesToChars bs).map String.mk

/-! ## Base64 (model of `btoa` / `atob`)

`arrayBufferToBase64` and `base64ToArrayBuffer` in `crypto.ts` are loops
around the external `btoa`/`atob`; the base64 codec itself is implemented
here in full. -/

/-- The base64 alphabet. -/
def b64Alphabet : List Char :=
  ['A','B','C','D','E','F','G','H','I','J','K','L','M','N','O','P','Q','R','S','T',
   'U','V','W','X','Y','Z','a','b','c','d','e','f','g','h','i','j','k','l','m','n',
   'o','p','q','r','s','t','u','v','w','x','y','z','0','1','2','3','4','5','6','7',
   '8','9','+','/']

/-- Character for a six-bit value. -/
def b64Char (n : Nat) : Char := b64Alphabet.getD n 'A'

/-- Index of a base64 character, `none` for characters outside the alphabet. -/
def b64Index (c : Char) : Option Nat := b64Alphabet.indexOf? c

/-- Base64 encoding of a byte list (with `=` padding). -/
def base64Encode : List Nat → List Char
  | [] => []
  | [b0] => [b64Char (b0 / 4), b64Char (b0 % 4 * 16), '=', '=']
  | [b0, b1] => [b64Char (b0 / 4), b64Char (b0 % 4 * 16 + b1 / 16), b64Char (b1 % 16 * 4), '=']
  | b0 :: b1 :: b2 :: rest =>
    b64Char (b0 / 4) :: b64Char (b0 % 4 * 16 + b1 / 16) ::
      b64Char (b1 % 16 * 4 + b2 / 64) :: b64Char (b2 % 64) :: base64Encode rest

/-- Base64 decoding; `none` on input `atob` would reject. -/
def base64Decode : List Char → Option (List Nat)
  | [] => some []
  | c0 :: c1 :: c2 :: c3 :: rest =>
    if c2 = '=' ∧ c3 = '=' then
      match b64Index c0, b64Index c1, rest with
      | some s0, some s1, [] => some [s0 * 4 + s1 / 16]
      | _, _, _ => none
    else if c3 = '=' then
      match b64Index c0, b64Index c1, b64Index c2, rest with
      | some s0, some s1, some s2, [] => some [s0 * 4 + s1 / 16, s1 % 16 * 16 + s2 / 4]
      | _, _, _, _ => none
    else
      match b64Index c0, b64Index c1, b64Index c2, b64Index c3 with
      | some s0, some s1, some s2, some s3 =>
        (base64Decode rest).map
          (fun bs => (s0 * 4 + s1 / 16) :: (s1 % 16 * 16 + s2 / 4) :: (s2 % 4 * 64 + s3) :: bs)
      | _, _, _, _ => none
  | _ => none

/-- Model of `arrayBufferToBase64`. -/
def arrayBufferToBase64 (bs : List Nat) : String :=
  String.mk (base64Encode bs)

/-- Model of `base64ToArrayBuffer`; `none` models the `atob` exception. -/
def base64ToArrayBuffer (s : String) : Option (List Nat) :=
  base64Decode s.data

/-! ## Ideal authenticated encryption (model of Web Crypto AES-GCM + PBKDF2)

`deriveKey` (PBKDF2) is deterministic in `(password, salt)`; AES-GCM is an
authenticated cipher whose decryption succeeds exactly for the key and IV
that produced the ciphertext.  Both are external Web Crypto primitives,
modelled as an ideal sealed box: the ciphertext is an injective byte
encoding of `(password, key salt, iv, message)`, and opening checks the
key and IV and recovers the message.  Lengths inside the box are recorded
as self-delimiting unary runs so every box byte stays below 256. -/

/-- Derived key: PBKDF2 modelled as the (password, salt) pair itself. -/
structure AeadKey where
  password : String
  salt : List Nat
deriving DecidableEq

/-- Model of `deriveKey`. -/
def deriveKey (password : String) (salt : List Nat) : AeadKey :=
  ⟨password, salt⟩

/-- Self-delimiting unary length marker (`n` ones then a zero). -/
def unaryLen (n : Nat) : List Nat :=
  List.replicate n 1 ++ [0]

/-- Read a unary length marker, returning the length and the remainder. -/
def readUnary : List Nat → Option (Nat × List Nat)
  | [] => none
  | 0 :: rest => some (0, rest)
  | 1 :: rest => (readUnary rest).map (fun p => (p.1 + 1, p.2))
  | _ => none

/-- Ideal AES-GCM encryption: the returned bytes stand for
`ciphertext+tag` of `crypto.subtle.encrypt`. -/
def sealAead (key : AeadKey) (iv : List Nat) (msg : List Nat) : List Nat :=
  let pb := stringToBytes key.password
  unaryLen pb.length ++ pb ++ unaryLen key.salt.length ++ key.salt ++
    unaryLen iv.length ++ iv ++ msg

/-- Ideal AES-GCM decryption (`crypto.subtle.decrypt`): recovers the
message exactly when the box was sealed under the same key and IV;
`none` models the AEAD tag-check exception. -/
def openAead (key : AeadKey) (iv : List Nat) (ct : List Nat) : Option (List Nat) :=
  match readUnary ct with
  | none => none
  | some (pl, r1) =>
    let pb := r1.take pl
    match readUnary (r1.drop pl) with
    | none => none
    | some (sl, r2) =>
      let sb := r2.take sl
      match readUnary (r2.drop sl) with
      | none => none
      | some (il, r3) =>
        let ib := r3.take il
        let msg := r3.drop il
        match bytesToString pb with
        | none => none
        | some pw =>
          if pw = key.password ∧ sb = key.salt ∧ ib = iv then some msg else none

/-! ## Content cipher (`src/utils/crypto.ts`)

The fresh 16-byte salt and 12-byte IV drawn by `crypto.getRandomValues`
inside `encrypt` are passed in as explicit parameters. -/

/-- Function `encrypt(text, password)` with the randomness made explicit:
derive the key, seal, and base64-encode `salt ++ iv ++ ciphertext`. -/
def encrypt (text password : String) (salt iv : List Nat) : String :=
  let key := deriveKey password salt
  let encryptedBuffer := sealAead key iv (stringToBytes text)
  arrayBufferToBase64 (salt ++ iv ++ encryptedBuffer)

/-- The uniform error message thrown by `decrypt`. -/
def decryptionFailedMsg : String := "Decryption failed - incorrect password"

/-- The body of `decrypt`'s `try` block: base64-decode, split the blob at
byte offsets 16 and 28, re-derive the key and open the box; `none` for
any of the internal exceptions. -/
def decryptCore (ciphertext password : String) : Option String :=
  match base64ToArrayBuffer ciphertext with
  | none => none
  | some combined =>
    let salt := combined.take 16
    let iv := (combined.drop 16).take 12
    let encryptedData := combined.drop 28
    let key := deriveKey password salt
    match openAead key iv encryptedData with
    | none => none
    | some msgBytes => bytesToString msgBytes

/-- Function `decrypt(ciphertext, password)`: every internal failure is caught and
rethrown as the single `decryptionFailedMsg` error. -/
def decrypt (ciphertext password : String) : Except String String :=
  match decryptCore ciphertext password with
  | some s => .ok s
  | none => .error decryptionFailedMsg

/-- Ideal model of the external SHA-256 digest used only for password
verification: an injective digest. -/
def sha256Model (input : List Nat) : List Nat := input

/-- Function `generatePasswordHash(password, salt)`: SHA-256 of
`base64decode(salt) ++ utf8(password)`, base64-encoded.  `none` models
the `atob` exception on a salt that is not valid base64. -/
def generatePasswordHash (password salt : String) : Option String :=
  match base64ToArrayBuffer salt with
  | none => none
  | some saltBuffer =>
    some (arrayBufferToBase64 (sha256Model (saltBuffer ++ stringToBytes password)))

/-- Constant `ENCRYPTED_PREFIX`, the marker tagging ciphertext strings. -/
def encryptedMarker : String := "ENC:"

/-- Predicate `isEncryptedContent` (`content.startsWith(ENCRYPTED_PREFIX)`). -/
def isEncryptedContent (content : String) : Bool :=
  encryptedMarker.data.isPrefixOf content.data

/-- Wrapper `encryptContent`: encrypt and tag. -/
def encryptContent (content password : String) (salt iv : List Nat) : String :=
  encryptedMarker ++ encrypt content password salt iv

/-- Wrapper `decryptContent`: strip the marker and decrypt; untagged content is
returned unchanged. -/
def decryptContent (content password : String) : Except String String :=
  if isEncryptedContent content then
    decrypt (String.mk (content.data.drop 4)) password
  else
    .ok content

/-- JS `String.prototype.split` with a single-character separator. -/
def jsSplitAux (sep : Char) : List Char → List Char → List String
  | [], acc => [String.mk acc.reverse]
  | c :: cs, acc =>
    if c = sep then String.mk acc.reverse :: jsSplitAux sep cs []
    else jsSplitAux sep cs (c :: acc)

/-- Model of `s.split(sep)` for a one-character separator. -/
def jsSplit (s : String) (sep : Char) : List String :=
  jsSplitAux sep s.data []

/-! ## Data model (`src/types.ts`)

`Id` is `string | number` in the source; identifiers are opaque and only
compared for equality, so they are modelled as strings. -/

/-- Entity identifier. -/
abbrev Id := String

/-- A task or idea board column. -/
structure Column where
  id : Id
  recordId : Option String := none
  title : String
  isEncrypted : Bool := false
  encryptionSalt : Option String := none
deriving DecidableEq

/-- A task card. -/
structure Task where
  id : Id
  recordId : Option String := none
  columnId : Id
  content : String
  completed : Bool := false
deriving DecidableEq

/-- An idea card. -/
structure Idea where
  id : Id
  recordId : Option String := none
  columnId : Id
  content : String
  isAiGenerated : Bool := false
deriving DecidableEq

/-- A document. -/
structure Document where
  id : Id
  recordId : Option String := none
  folderId : Option Id := none
  title : String
  content : String
  createdAt : Option Nat := none
  updatedAt : Option Nat := none
  isEncrypted : Bool := false
  encryptionSalt : Option String := none
deriving DecidableEq

/-- A document folder. -/
structure DocumentFolder where
  id : Id
  recordId : Option String := none
  title : String
  isEncrypted : Bool := false
  encryptionSalt : Option String := none
deriving DecidableEq

/-- The full user snapshot (`UserData` in `feishuService.ts`). -/
structure UserData where
  columns : List Column
  tasks : List Task
  ideaColumns : List Column
  ideas : List Idea
  documents : List Document
  documentFolders : List DocumentFolder
deriving DecidableEq

/-! ## Password map (the session's Unlocked-Password Map)

A JS `Map<Id, string>`; only `has`, `get`, `set` and `size` are used. -/

/-- Association-list model of `Map<Id, string>`. -/
abbrev PasswordMap := List (Id × String)

/-- Operation `Map.has`. -/
def pmHas (m : PasswordMap) (k : Id) : Bool :=
  m.any (fun p => p.1 == k)

/-- Operation `Map.get`. -/
def pmGet (m : PasswordMap) (k : Id) : Option String :=
  (m.find? (fun p => p.1 == k)).map (·.2)

/-- Operation `Map.set` (overwrites any previous binding of the key). -/
def pmSet (m : PasswordMap) (k : Id) (v : String) : PasswordMap :=
  (k, v) :: m.filter (fun p => p.1 != k)

/-! ## Sync status and local durable storage -/

/-- Type `SyncStatus` from `feishuService.ts`. -/
inductive SyncStatus
  | idle | syncing | synced | error | offline
deriving DecidableEq

/-- A `{userId, data, timestamp}` entry as serialized into a storage slot. -/
structure OfflineEntry where
  userId : String
  data : UserData
  timestamp : Nat
deriving DecidableEq

/-- The `localStorage` slots the sync service touches:
`zentask_offline_queue` and `zentask_data_backup`. -/
structure LocalStore where
  offlineQueue : Option OfflineEntry := none
  backup : Option OfflineEntry := none
deriving DecidableEq

/-! ## Encrypted-entity gate (`encryptDataForSync` in `feishuService.ts`)

The JS `Set`s `allEncryptedColumnIds` / `encryptedWithPassword` built by
the two collection loops are modelled as membership predicates over
`data.columns ++ data.ideaColumns`, and `columnPasswords.get` as a lookup
in the password map (it is populated from the same map).  The fresh
salt/IV used by each `encryptContent` call are explicit parameters. -/

/-- Membership in `allEncryptedColumnIds`. -/
def isEncryptedColumnId (data : UserData) (cid : Id) : Bool :=
  (data.columns ++ data.ideaColumns).any (fun c => c.isEncrypted && c.id == cid)

/-- Membership in `encryptedWithPassword`. -/
def isEncryptedWithPassword (data : UserData) (passwords : PasswordMap) (cid : Id) : Bool :=
  (data.columns ++ data.ideaColumns).any
    (fun c => c.isEncrypted && c.id == cid && pmHas passwords c.id)

/-- The `"[加密主题]"` placeholder substituted for a decrypted title of an
encrypted column whose password is unavailable. -/
def encPlaceholder : String := "[加密主题]"

/-- The task filter of `encryptDataForSync`: drop a task of an encrypted
column whose password is missing while its content is untagged plaintext. -/
def taskPassesGate (data : UserData) (passwords : PasswordMap) (columnId : Id)
    (content : String) : Bool :=
  !(isEncryptedColumnId data columnId &&
    !isEncryptedWithPassword data passwords columnId &&
    !isEncryptedContent content)

/-- The column-title transform of `encryptDataForSync`. -/
def gateColumnTitle (passwords : PasswordMap) (salt iv : List Nat) (col : Column) : Column :=
  if col.isEncrypted then
    if pmHas passwords col.id then
      if !isEncryptedContent col.title then
        { col with title := encryptContent col.title ((pmGet passwords col.id).getD "") salt iv }
      else col
    else if !isEncryptedContent col.title then
      { col with title := encPlaceholder }
    else col
  else col

/-- Function `encryptDataForSync(data, passwords)`. -/
def encryptDataForSync (data : UserData) (passwords : PasswordMap)
    (salt iv : List Nat) : UserData :=
  let encryptedTasks :=
    (data.tasks.filter (fun task => taskPassesGate data passwords task.columnId task.content)).map
      (fun task =>
        if isEncryptedWithPassword data passwords task.columnId &&
            !isEncryptedContent task.content then
          { task with
            content := encryptContent task.content
              ((pmGet passwords task.columnId).getD "") salt iv }
        else task)
  let encryptedIdeas :=
    (data.ideas.filter (fun idea => taskPassesGate data passwords idea.columnId idea.content)).map
      (fun idea =>
        if isEncryptedWithPassword data passwords idea.columnId &&
            !isEncryptedContent idea.content then
          { idea with
            content := encryptContent idea.content
              ((pmGet passwords idea.columnId).getD "") salt iv }
        else idea)
  { columns := data.columns.map (gateColumnTitle passwords salt iv)
    tasks := encryptedTasks
    ideaColumns := data.ideaColumns.map (gateColumnTitle passwords salt iv)
    ideas := encryptedIdeas
    documents := data.documents          -- documents have their own encryption
    documentFolders := data.documentFolders }

/-! ## Full-snapshot save path (`saveUserDataImmediate` and friends) -/

/-- Step 2 of `saveUserDataImmediate`: the payload POSTed to the sync
endpoint.  The gate runs only when a password map was passed and is
non-empty. -/
def savePayload (data : UserData) (passwords : Option PasswordMap)
    (salt iv : List Nat) : UserData :=
  match passwords with
  | some pm => if pm.length > 0 then encryptDataForSync data pm salt iv else data
  | none => data

/-- Function `saveUserDataImmediate(userId, data, passwords?)`: write the backup
slot, POST the payload (outcome given by the `postOk` oracle), and clear
the backup slot on success.  Returns the payload that was POSTed. -/
def saveUserDataImmediate (userId : String) (data : UserData)
    (passwords : Option PasswordMap) (salt iv : List Nat) (now : Nat)
    (postOk : Bool) (st : LocalStore) : LocalStore × Except String UserData :=
  let st1 := { st with backup := some ⟨userId, data, now⟩ }
  let payload := savePayload data passwords salt iv
  if postOk then ({ st1 with backup := none }, .ok payload)
  else (st1, .error "HTTP error")

/-- Function `queueOfflineData(userId, data)`: overwrite the single offline-queue
slot. -/
def queueOfflineData (userId : String) (data : UserData) (now : Nat)
    (st : LocalStore) : LocalStore :=
  { st with offlineQueue := some ⟨userId, data, now⟩ }

/-- The body of the debounce timer set by `saveUserDataDebounced`: try the
immediate save (without passwords), on failure queue the snapshot and
report `offline`, on success report `synced`. -/
def debouncedSaveFire (userId : String) (data : UserData) (salt iv : List Nat)
    (now : Nat) (postOk : Bool) (st : LocalStore) : LocalStore × SyncStatus :=
  match saveUserDataImmediate userId data none salt iv now postOk st with
  | (st1, .ok _) => (st1, .synced)
  | (st1, .error _) => (queueOfflineData userId data now st1, .offline)

/-- Function `processOfflineQueue(onStatusChange)`: drain the offline-queue slot.
Returns the storage, the statuses reported, and the boolean result. -/
def processOfflineQueue (salt iv : List Nat) (now : Nat) (postOk : Bool)
    (st : LocalStore) : LocalStore × List SyncStatus × Bool :=
  match st.offlineQueue with
  | none => (st, [], false)
  | some e =>
    match saveUserDataImmediate e.userId e.data none salt iv now postOk st with
    | (st1, .ok _) => ({ st1 with offlineQueue := none }, [.syncing, .synced], true)
    | (st1, .error _) => (st1, [.syncing, .offline], false)

/-! ## Full-snapshot replace-then-delete (`handlePost` in `api/feishu/sync.ts`)

The remote Bitable store is a family of five tables of records; a record
is a backend-assigned `record_id` plus a field map.  `fetchTableRecords`
filters by `user_id`.  `createRecords`/`deleteRecordsByIds` chunk into
batches of 500; a whole logical create either succeeds or fails after
creating some prefix of its records (the per-table outcome and prefix are
given by the environment, reflecting that `Promise.all` does not cancel
the sibling calls of a failed one).  Backend record ids for new records
are supplied by the environment's id generator. -/

/-- The five logical tables. -/
inductive Tbl
  | columnsT | tasksT | ideasT | docsT | foldersT
deriving DecidableEq

/-- All five tables. -/
def allTbls : List Tbl := [.columnsT, .tasksT, .ideasT, .docsT, .foldersT]

/-- The field map written by `handlePost` (union of the five shapes). -/
structure FeishuFields where
  entityId : Id
  userId : String
  columnId : Option Id := none
  folderId : Option Id := none
  title : Option String := none
  content : Option String := none
  ftype : Option String := none
  completed : Option Bool := none
  isAiGenerated : Option Bool := none
  isEncrypted : Option Bool := none
  encryptionSalt : Option String := none
  createdAt : Option Nat := none
  updatedAt : Option Nat := none
  sortOrder : Nat := 0
  syncVersion : Nat := 0
deriving DecidableEq

/-- A stored remote record. -/
structure RemoteRecord where
  recordId : String
  fields : FeishuFields
deriving DecidableEq

/-- The remote store: records per table. -/
def RemoteState := Tbl → List RemoteRecord

/-- Step 2 of `handlePost`: the prepared `columnRecords` (task columns then
idea columns, each with its index as `sort_order`). -/
def preparedColumnRecords (userId : String) (data : UserData) (syncVersion : Nat) :
    List FeishuFields :=
  (data.columns.enum.map fun p =>
    { entityId := p.2.id, userId := userId, title := some p.2.title,
      ftype := some "task", sortOrder := p.1, syncVersion := syncVersion }) ++
  (data.ideaColumns.enum.map fun p =>
    { entityId := p.2.id, userId := userId, title := some p.2.title,
      ftype := some "idea", sortOrder := p.1, syncVersion := syncVersion })

/-- The prepared `taskRecords`. -/
def preparedTaskRecords (userId : String) (data : UserData) (syncVersion : Nat) :
    List FeishuFields :=
  data.tasks.enum.map fun p =>
    { entityId := p.2.id, userId := userId, columnId := some p.2.columnId,
      content := some p.2.content, completed := some p.2.completed,
      sortOrder := p.1, syncVersion := syncVersion }

/-- The prepared `ideaRecords`. -/
def preparedIdeaRecords (userId : String) (data : UserData) (syncVersion : Nat) :
    List FeishuFields :=
  data.ideas.enum.map fun p =>
    { entityId := p.2.id, userId := userId, columnId := some p.2.columnId,
      content := some p.2.content, isAiGenerated := some p.2.isAiGenerated,
      sortOrder := p.1, syncVersion := syncVersion }

/-- The prepared `documentRecords` (`created_at`/`updated_at` default to the
current time when absent). -/
def preparedDocumentRecords (userId : String) (data : UserData) (syncVersion now : Nat) :
    List FeishuFields :=
  data.documents.enum.map fun p =>
    { entityId := p.2.id, userId := userId, folderId := some (p.2.folderId.getD ""),
      title := some p.2.title, content := some p.2.content,
      createdAt := some (p.2.createdAt.getD now), updatedAt := some (p.2.updatedAt.getD now),
      sortOrder := p.1, syncVersion := syncVersion }

/-- The prepared `documentFolderRecords`. -/
def preparedFolderRecords (userId : String) (data : UserData) (syncVersion : Nat) :
    List FeishuFields :=
  data.documentFolders.enum.map fun p =>
    { entityId := p.2.id, userId := userId, title := some p.2.title,
      isEncrypted := some p.2.isEncrypted,
      encryptionSalt := some (p.2.encryptionSalt.getD ""),
      sortOrder := p.1, syncVersion := syncVersion }

/-- The record lists `handlePost` prepares for each table. -/
def preparedRecords (userId : String) (data : UserData) (syncVersion now : Nat) :
    Tbl → List FeishuFields
  | .columnsT => preparedColumnRecords userId data syncVersion
  | .tasksT => preparedTaskRecords userId data syncVersion
  | .ideasT => preparedIdeaRecords userId data syncVersion
  | .docsT => preparedDocumentRecords userId data syncVersion now
  | .foldersT => preparedFolderRecords userId data syncVersion

/-- One visible action on the remote API. -/
inductive SyncAction
  | fetchA (t : Tbl)
  | createA (t : Tbl) (count : Nat)
  | deleteA (t : Tbl) (ids : List String)
deriving DecidableEq

/-- Whether an action is a delete. -/
def SyncAction.isDelete : SyncAction → Bool
  | .deleteA _ _ => true
  | _ => false

/-- Whether an action is a create. -/
def SyncAction.isCreate : SyncAction → Bool
  | .createA _ _ => true
  | _ => false

/-- Environment of one `handlePost` execution: per-table create outcome,
how many records of a failing table were created before the failure, and
the backend's fresh record ids. -/
structure PostEnv where
  createOk : Tbl → Bool
  createdCount : Tbl → Nat
  idGen : Tbl → Nat → String

/-- Handler `handlePost(userId, data)`: read the old record ids of all five
tables, prepare and create the new records, and delete the old ids only
after every create succeeded.  Returns whether the handler completed, the
resulting remote state, and the trace of API actions. -/
def handlePost (env : PostEnv) (userId : String) (data : UserData)
    (syncVersion now : Nat) (st : RemoteState) :
    Bool × RemoteState × List SyncAction :=
  let oldIds : Tbl → List String := fun t =>
    ((st t).filter (fun r => r.fields.userId == userId)).map (·.recordId)
  let newRecs : Tbl → List RemoteRecord := fun t =>
    (preparedRecords userId data syncVersion now t).enum.map
      (fun p => ⟨env.idGen t p.1, p.2⟩)
  let fetchActs := allTbls.map SyncAction.fetchA
  let createActs := allTbls.map (fun t => SyncAction.createA t (newRecs t).length)
  if allTbls.all (fun t => env.createOk t) then
    let stAfterCreate : RemoteState := fun t => st t ++ newRecs t
    let stAfterDelete : RemoteState := fun t =>
      (stAfterCreate t).filter (fun r => !(oldIds t).contains r.recordId)
    (true, stAfterDelete,
      fetchActs ++ createActs ++ allTbls.map (fun t => SyncAction.deleteA t (oldIds t)))
  else
    let stAborted : RemoteState := fun t =>
      st t ++ (if env.createOk t then newRecs t else (newRecs t).take (env.createdCount t))
    (false, stAborted, fetchActs ++ createActs)

/-! ## Debounced sync (`debouncedSync` in `App.tsx`)

`App.tsx` keeps one timer reference (`syncTimerRef`); every call to
`debouncedSync` clears any pending timer and stores the new sync
callback.  When the timer fires, the stored callback runs once.  A sync
callback is identified by the single-record write it would issue. -/

/-- The remote write captured by a sync callback passed to `debouncedSync`
(an `updateRecord(table, recordId, data)` call). -/
structure PendingWrite where
  table : String
  recordId : String
  content : String
deriving DecidableEq

/-- Events of the debounce state machine: a `debouncedSync(fn)` call, or
the pending timer firing. -/
inductive DebounceEv
  | schedule (w : PendingWrite)
  | timerFire
deriving DecidableEq

/-- One step of the shared-timer debounce: `schedule` clears the previous
timer (dropping its callback) and stores the new one; `timerFire` runs the
stored callback.  Returns the new pending slot and the writes issued. -/
def debounceStep (pending : Option PendingWrite) :
    DebounceEv → Option PendingWrite × List PendingWrite
  | .schedule w => (some w, [])
  | .timerFire => (none, pending.toList)

/-- Run a sequence of debounce events, collecting the issued writes. -/
def debounceRun (pending : Option PendingWrite) :
    List DebounceEv → Option PendingWrite × List PendingWrite
  | [] => (pending, [])
  | ev :: evs =>
    let (p1, ws1) := debounceStep pending ev
    let (p2, ws2) := debounceRun p1 evs
    (p2, ws1 ++ ws2)

/-! ## Incremental mutation handlers (`App.tsx`)

Each handler applies its optimistic local state update and issues remote
calls; a remote call is only made under `currentUser` presence and, for
update/delete, under presence of the entity's `recordId`. -/

/-- A single-record remote API call (`record.ts` endpoint). -/
inductive RemoteCall
  | createC (table : String)
  | updateC (table : String) (recordId : String)
  | deleteC (table : String) (recordId : String)
deriving DecidableEq

/-- Handler `deleteTask(id)`: optimistic removal, then a remote delete only when
the task has a `recordId`. -/
def deleteTaskH (currentUser : Option String) (tasks : List Task) (tid : Id) :
    List Task × List RemoteCall :=
  let task := tasks.find? (fun t => t.id == tid)
  let tasks1 := tasks.filter (fun t => !(t.id == tid))
  let calls :=
    match currentUser, task with
    | some _, some t =>
      match t.recordId with
      | some rid => [RemoteCall.deleteC "tasks" rid]
      | none => []
    | _, _ => []
  (tasks1, calls)

/-- Handler `updateTask(id, content)`: optimistic content update; the debounced
remote update is issued only when the task has a `recordId`, encrypting
the content first when the task's column is encrypted and unlocked. -/
def updateTaskH (currentUser : Option String) (columns : List Column)
    (unlockedColumns : PasswordMap) (tasks : List Task) (tid : Id)
    (content : String) (salt iv : List Nat) : List Task × List RemoteCall :=
  let tasks1 := tasks.map (fun t => if t.id == tid then { t with content := content } else t)
  let task := tasks.find? (fun t => t.id == tid)
  let calls :=
    match currentUser, task with
    | some _, some t =>
      match t.recordId with
      | some rid =>
        let column := columns.find? (fun c => c.id == t.columnId)
        if (column.map (·.isEncrypted)).getD false && pmHas unlockedColumns t.columnId then
          let password := (pmGet unlockedColumns t.columnId).getD ""
          let _ := encryptContent content password salt iv
          [RemoteCall.updateC "tasks" rid]
        else [RemoteCall.updateC "tasks" rid]
      | none => []
    | _, _ => []
  (tasks1, calls)

/-- Handler `deleteColumn(id)`: optimistic removal of the column and its tasks,
then remote deletes for the column (if it has a `recordId`) and for each
cascaded task that has one. -/
def deleteColumnH (currentUser : Option String) (columns : List Column)
    (tasks : List Task) (cid : Id) :
    List Column × List Task × List RemoteCall :=
  let column := columns.find? (fun c => c.id == cid)
  let tasksToDelete := tasks.filter (fun t => t.columnId == cid)
  let columns1 := columns.filter (fun c => !(c.id == cid))
  let tasks1 := tasks.filter (fun t => !(t.columnId == cid))
  let calls :=
    match currentUser with
    | none => []
    | some _ =>
      (match column with
       | some c =>
         match c.recordId with
         | some rid => [RemoteCall.deleteC "columns" rid]
         | none => []
       | none => []) ++
      tasksToDelete.filterMap (fun t => t.recordId.map (RemoteCall.deleteC "tasks"))
  (columns1, tasks1, calls)

/-! ## Manual refresh (`handleRefresh` in `App.tsx`) -/

/-- The in-memory board state held by the App component. -/
structure LocalState where
  columns : List Column
  tasks : List Task
  ideaColumns : List Column
  ideas : List Idea
  documents : List Document
  documentFolders : List DocumentFolder
deriving DecidableEq

/-- The `hasCloudData` test of `handleRefresh`: at least one of the six
fetched collections is non-empty. -/
def hasCloudData (d : UserData) : Bool :=
  d.columns.length > 0 || d.tasks.length > 0 || d.ideaColumns.length > 0 ||
    d.ideas.length > 0 || d.documents.length > 0 || d.documentFolders.length > 0

/-- Handler `handleRefresh()`: guarded by `currentUser`, `isRefreshingRef` and
`isSavingRef`; on a successful fetch with cloud data, replace local state
and rewrite the per-user cache; on an empty cloud snapshot just report
`synced`.  `fetchResult` is the outcome of `fetchUserData` (`.error` for a
thrown fetch).  Returns the new local state, cache entry and the final
sync status. -/
def handleRefresh (currentUser : Option String) (isRefreshing isSaving : Bool)
    (fetchResult : Except String (Option UserData)) (localSt : LocalState)
    (cache : Option UserData) (status : SyncStatus) :
    LocalState × Option UserData × SyncStatus :=
  if currentUser.isNone || isRefreshing || isSaving then (localSt, cache, status)
  else
    match fetchResult with
    | .error _ => (localSt, cache, .error)
    | .ok none => (localSt, cache, .synced)
    | .ok (some d) =>
      if hasCloudData d then
        ({ columns := if d.columns.length > 0 then d.columns else []
           tasks := d.tasks
           ideaColumns := if d.ideaColumns.length > 0 then d.ideaColumns else []
           ideas := d.ideas
           documents := d.documents
           documentFolders := d.documentFolders },
         some d, .synced)
      else (localSt, cache, .synced)

/-! ## Unlock paths (`App.tsx`)

The `UnlockDialog` `onUnlock` callback verifies the candidate password
against the column's `salt:hash` verifier and, on success, stores the
password and decrypts the column's loaded tasks and ideas in place
(best-effort).  `unlockDocumentFolder` is the folder-side path. -/

/-- Best-effort decryption of one task during unlock. -/
def tryDecryptTask (password : String) (t : Task) : Task :=
  if isEncryptedContent t.content then
    match decryptContent t.content password with
    | .ok dec => { t with content := dec }
    | .error _ => t
  else t

/-- Best-effort decryption of one idea during unlock. -/
def tryDecryptIdea (password : String) (i : Idea) : Idea :=
  if isEncryptedContent i.content then
    match decryptContent i.content password with
    | .ok dec => { i with content := dec }
    | .error _ => i
  else i

/-- The `onUnlock` callback: split the verifier on `:`, recompute the hash
from the stored salt and the candidate, compare; on match store the
password and decrypt the column's tasks and ideas in place.  Returns
`none` when `generatePasswordHash` throws, otherwise the dialog result
together with the updated password map, tasks and ideas. -/
def unlockColumnH (col : Column) (password : String) (unlockedColumns : PasswordMap)
    (tasks : List Task) (ideas : List Idea) :
    Option (Bool × PasswordMap × List Task × List Idea) :=
  match col.encryptionSalt with
  | none => some (false, unlockedColumns, tasks, ideas)
  | some es =>
    match jsSplit es ':' with
    | [salt, storedHash] =>
      match generatePasswordHash password salt with
      | none => none
      | some computedHash =>
        if computedHash == storedHash then
          let unlocked1 := pmSet unlockedColumns col.id password
          let decryptedTasks :=
            (tasks.filter (fun t => t.columnId == col.id)).map (tryDecryptTask password)
          let tasks1 := tasks.map (fun t =>
            match decryptedTasks.find? (fun dt => dt.id == t.id) with
            | some dt => dt
            | none => t)
          let decryptedIdeas :=
            (ideas.filter (fun i => i.columnId == col.id)).map (tryDecryptIdea password)
          let ideas1 := ideas.map (fun i =>
            match decryptedIdeas.find? (fun di => di.id == i.id) with
            | some di => di
            | none => i)
          some (true, unlocked1, tasks1, ideas1)
        else some (false, unlockedColumns, tasks, ideas)
    | _ => some (false, unlockedColumns, tasks, ideas)

/-- Handler `unlockDocumentFolder(folder)`: after a non-empty password prompt, if
the folder carries a verifier, call `generatePasswordHash` on the *whole*
verifier string (it is never split on `:`) and store the password without
comparing anything.  Returns `none` when `generatePasswordHash` throws
(which aborts before the password is stored), otherwise the updated
folder password map. -/
def unlockDocumentFolderH (folder : DocumentFolder) (password : String)
    (unlockedFolders : PasswordMap) : Option PasswordMap :=
  if password == "" then some unlockedFolders
  else
    match folder.encryptionSalt with
    | some es =>
      match generatePasswordHash password es with
      | none => none
      | some _ => some (pmSet unlockedFolders folder.id password)
    | none => some unlockedFolders

/-! ## Codec lemmas -/

/-- Looking up the character of a six-bit value recovers the value. -/
theorem b64Index_b64Char (n : Nat) (h : n < 64) : b64Index (b64Char n) = some n := by
  have hall : ∀ i : Fin 64, b64Index (b64Char i.1) = some i.1 := by decide
  exact hall ⟨n, h⟩

/-- Base64 alphabet characters are never the padding character. -/
theorem b64Char_ne_pad (n : Nat) (h : n < 64) : b64Char n ≠ '=' := by
  have hall : ∀ i : Fin 64, b64Char i.1 ≠ '=' := by decide
  exact hall ⟨n, h⟩

/-- Decoding inverts encoding on well-formed byte lists. -/
theorem base64Decode_encode : ∀ bs : List Nat, (∀ b ∈ bs, b < 256) →
    base64Decode (base64Encode bs) = some bs
  | [], _ => rfl
  | [b0], h => by
    have hb0 : b0 < 256 := h b0 (by simp)
    have i0 := b64Index_b64Char (b0 / 4) (by omega)
    have i1 := b64Index_b64Char (b0 % 4 * 16) (by omega)
    simp [base64Encode, base64Decode, i0, i1]
    omega
  | [b0, b1], h => by
    have hb0 : b0 < 256 := h b0 (by simp)
    have hb1 : b1 < 256 := h b1 (by simp)
    have hne : b64Char (b1 % 16 * 4) ≠ '=' := b64Char_ne_pad _ (by omega)
    have i0 := b64Index_b64Char (b0 / 4) (by omega)
    have i1 := b64Index_b64Char (b0 % 4 * 16 + b1 / 16) (by omega)
    have i2 := b64Index_b64Char (b1 % 16 * 4) (by omega)
    simp [base64Encode, base64Decode, hne, i0, i1, i2]
    omega
  | b0 :: b1 :: b2 :: rest, h => by
    have hb0 : b0 < 256 := h b0 (by simp)
    have hb1 : b1 < 256 := h b1 (by simp)
    have hb2 : b2 < 256 := h b2 (by simp)
    have ih := base64Decode_encode rest (fun b hb => h b (by simp [hb]))
    have hne2 : b64Char (b1 % 16 * 4 + b2 / 64) ≠ '=' := b64Char_ne_pad _ (by omega)
    have hne3 : b64Char (b2 % 64) ≠ '=' := b64Char_ne_pad _ (by omega)
    have i0 := b64Index_b64Char (b0 / 4) (by omega)
    have i1 := b64Index_b64Char (b0 % 4 * 16 + b1 / 16) (by omega)
    have i2 := b64Index_b64Char (b1 % 16 * 4 + b2 / 64) (by omega)
    have i3 := b64Index_b64Char (b2 % 64) (by omega)
    show base64Decode (b64Char (b0 / 4) :: b64Char (b0 % 4 * 16 + b1 / 16) ::
      b64Char (b1 % 16 * 4 + b2 / 64) :: b64Char (b2 % 64) :: base64Encode rest) = _
    simp [base64Decode, hne2, hne3, i0, i1, i2, i3, ih]
    omega

/-- Base64 round trip through the string wrappers. -/
theorem base64ToArrayBuffer_arrayBufferToBase64 (bs : List Nat) (h : ∀ b ∈ bs, b < 256) :
    base64ToArrayBuffer (arrayBufferToBase64 bs) = some bs := by
  unfold base64ToArrayBuffer arrayBufferToBase64
  exact base64Decode_encode bs h

/-- Code points fit in three bytes. -/
theorem char_toNat_lt (c : Char) : c.toNat < 1114112 := by
  have h := c.valid
  rcases h with h | ⟨_, h2⟩
  · exact Nat.lt_trans h (by norm_num)
  · exact h2

/-- Every byte of the text encoding is a byte. -/
theorem stringToBytes_lt (s : String) : ∀ b ∈ stringToBytes s, b < 256 := by
  intro b hb
  simp only [stringToBytes, List.mem_flatMap] at hb
  obtain ⟨c, _, hc⟩ := hb
  have hcv : c.toNat < 1114112 := char_toNat_lt c
  simp only [charToBytes, List.mem_cons, List.not_mem_nil, or_false] at hc
  rcases hc with rfl | rfl | rfl <;> omega

/-- Decoding the character bytes recovers the characters. -/
theorem bytesToChars_flatMap : ∀ cs : List Char,
    bytesToChars (cs.flatMap charToBytes) = some cs
  | [] => rfl
  | c :: cs => by
    have ih := bytesToChars_flatMap cs
    show bytesToChars (c.toNat / 65536 :: c.toNat / 256 % 256 :: c.toNat % 256 ::
      cs.flatMap charToBytes) = _
    have e : c.toNat / 65536 * 65536 + c.toNat / 256 % 256 * 256 + c.toNat % 256 = c.toNat := by
      omega
    simp [bytesToChars, ih, e, Char.ofNat_toNat]

/-- Text-codec round trip. -/
theorem bytesToString_stringToBytes (s : String) :
    bytesToString (stringToBytes s) = some s := by
  unfold bytesToString stringToBytes
  rw [bytesToChars_flatMap s.data]
  rfl

/-- Reading a unary marker recovers the length and the remainder. -/
theorem readUnary_unaryLen : ∀ (n : Nat) (tl : List Nat),
    readUnary (unaryLen n ++ tl) = some (n, tl)
  | 0, tl => rfl
  | n + 1, tl => by
    show readUnary (1 :: (unaryLen n ++ tl)) = _
    simp only [readUnary, readUnary_unaryLen n tl]
    rfl

/-- Opening a sealed box: succeeds with the message exactly under the
sealing key and IV. -/
theorem openAead_sealAead (k k' : AeadKey) (iv iv' msg : List Nat) :
    openAead k' iv' (sealAead k iv msg) =
      if k.password = k'.password ∧ k.salt = k'.salt ∧ iv = iv' then some msg else none := by
  unfold sealAead openAead
  have assoc : ∀ (a b : List Nat), a ++ b = a ++ b := fun _ _ => rfl
  rw [show unaryLen (stringToBytes k.password).length ++ stringToBytes k.password ++
        unaryLen k.salt.length ++ k.salt ++ unaryLen iv.length ++ iv ++ msg =
      unaryLen (stringToBytes k.password).length ++ (stringToBytes k.password ++
        (unaryLen k.salt.length ++ (k.salt ++ (unaryLen iv.length ++ (iv ++ msg))))) by
    simp [List.append_assoc]]
  rw [readUnary_unaryLen]
  simp only
  rw [List.take_left, List.drop_left, readUnary_unaryLen]
  simp only
  rw [List.take_left, List.drop_left, readUnary_unaryLen]
  simp only
  rw [List.take_left, List.drop_left, bytesToString_stringToBytes]

/-- Every byte of a sealed box is a byte (given well-formed key salt and IV). -/
theorem sealAead_lt (k : AeadKey) (iv msg : List Nat)
    (hks : ∀ b ∈ k.salt, b < 256) (hiv : ∀ b ∈ iv, b < 256)
    (hmsg : ∀ b ∈ msg, b < 256) : ∀ b ∈ sealAead k iv msg, b < 256 := by
  intro b hb
  have hunary : ∀ n, ∀ x ∈ unaryLen n, x < 256 := by
    intro n x hx
    simp only [unaryLen, List.mem_append, List.mem_replicate, List.mem_singleton] at hx
    rcases hx with ⟨_, rfl⟩ | rfl <;> omega
  simp only [sealAead, List.mem_append] at hb
  rcases hb with ((((((h | h) | h) | h) | h) | h) | h)
  · exact hunary _ b h
  · exact stringToBytes_lt k.password b h
  · exact hunary _ b h
  · exact hks b h
  · exact hunary _ b h
  · exact hiv b h
  · exact hmsg b h

/-- Splitting the decoded blob of `encrypt` at offsets 16 and 28 recovers
the salt, IV and box. -/
theorem decryptCore_encrypt (p pw pw' : String) (salt iv : List Nat)
    (hs : salt.length = 16) (hi : iv.length = 12)
    (hsb : ∀ b ∈ salt, b < 256) (hib : ∀ b ∈ iv, b < 256) :
    decryptCore (encrypt p pw salt iv) pw' =
      if pw = pw' then some p else none := by
  unfold encrypt decryptCore
  have hct := sealAead_lt (deriveKey pw salt) iv (stringToBytes p) hsb hib
    (stringToBytes_lt p)
  have hall : ∀ b ∈ salt ++ iv ++ sealAead (deriveKey pw salt) iv (stringToBytes p),
      b < 256 := by
    intro b hb
    simp only [List.mem_append] at hb
    rcases hb with (h | h) | h
    · exact hsb b h
    · exact hib b h
    · exact hct b h
  rw [base64ToArrayBuffer_arrayBufferToBase64 _ hall]
  have htake : (salt ++ iv ++ sealAead (deriveKey pw salt) iv (stringToBytes p)).take 16
      = salt := by
    rw [List.append_assoc, ← hs, List.take_left]
  have hdrop : (salt ++ iv ++ sealAead (deriveKey pw salt) iv (stringToBytes p)).drop 16
      = iv ++ sealAead (deriveKey pw salt) iv (stringToBytes p) := by
    rw [List.append_assoc, ← hs, List.drop_left]
  have htake2 : (iv ++ sealAead (deriveKey pw salt) iv (stringToBytes p)).take 12
      = iv := by
    rw [← hi, List.take_left]
  have hdrop28 : (salt ++ iv ++ sealAead (deriveKey pw salt) iv (stringToBytes p)).drop 28
      = sealAead (deriveKey pw salt) iv (stringToBytes p) := by
    have hlen : (salt ++ iv).length = 28 := by simp [hs, hi]
    rw [← hlen, List.drop_left]
  simp only [htake, hdrop, htake2, hdrop28]
  rw [openAead_sealAead]
  by_cases hpw : pw = pw'
  · subst hpw
    simp [deriveKey, bytesToString_stringToBytes]
  · rw [if_neg (by simp [deriveKey, hpw]), if_neg hpw]

/-- C4: round trip.  For every plaintext `p` (including `""`) and password
`pw`, and for the fresh random 16-byte salt and 12-byte IV drawn by
`encrypt`, `decrypt(encrypt(p, pw), pw)` returns `p`: `encrypt` emits
`base64(salt ‖ iv ‖ ciphertext+tag)` and `decrypt` splits the decoded blob
at byte offsets 16 and 28 and re-derives the same key from `(pw, salt)`. -/
theorem claim_C4_encrypt_decrypt_roundtrip (p pw : String) (salt iv : List Nat)
    (hs : salt.length = 16) (hi : iv.length = 12)
    (hsb : ∀ b ∈ salt, b < 256) (hib : ∀ b ∈ iv, b < 256) :
    decrypt (encrypt p pw salt iv) pw = .ok p := by
  unfold decrypt
  rw [decryptCore_encrypt p pw pw salt iv hs hi hsb hib, if_pos rfl]

/-- Witness for C4 at a concrete plaintext, password, salt and IV. -/
theorem claim_C4_encrypt_decrypt_roundtrip_witness :
    decrypt (encrypt "hi" "pw" (List.replicate 16 0) (List.replicate 12 0)) "pw"
      = .ok "hi" :=
  claim_C4_encrypt_decrypt_roundtrip "hi" "pw" (List.replicate 16 0) (List.replicate 12 0)
    (by decide) (by decide) (by decide) (by decide)

/-- C5: wrong-password rejection and the single failure mode.  Decrypting
under a different password fails with the one `DecryptionFailed` error;
every failure of `decrypt` (wrong password, tampered blob, undecodable
input) produces that same indistinguishable error and no plaintext is
ever returned in those cases. -/
theorem claim_C5_wrong_password_rejection (p pw1 pw2 : String) (salt iv : List Nat)
    (hs : salt.length = 16) (hi : iv.length = 12)
    (hsb : ∀ b ∈ salt, b < 256) (hib : ∀ b ∈ iv, b < 256)
    (hne : pw1 ≠ pw2) :
    decrypt (encrypt p pw1 salt iv) pw2 = .error decryptionFailedMsg
    ∧ (∀ c pw e, decrypt c pw = .error e → e = decryptionFailedMsg)
    ∧ (∀ c pw, base64ToArrayBuffer c = none →
        decrypt c pw = .error decryptionFailedMsg) := by
  refine ⟨?_, ?_, ?_⟩
  · unfold decrypt
    rw [decryptCore_encrypt p pw1 pw2 salt iv hs hi hsb hib, if_neg hne]
  · intro c pw e h
    unfold decrypt at h
    cases hd : decryptCore c pw <;> rw [hd] at h
    · exact (Except.error.inj h).symm
    · exact absurd h (by simp)
  · intro c pw h
    unfold decrypt decryptCore
    rw [h]

/-- Witness for C5 at concrete distinct passwords. -/
theorem claim_C5_wrong_password_rejection_witness :
    decrypt (encrypt "hi" "a" (List.replicate 16 0) (List.replicate 12 0)) "b"
        = .error decryptionFailedMsg
    ∧ (∀ c pw e, decrypt c pw = .error e → e = decryptionFailedMsg)
    ∧ (∀ c pw, base64ToArrayBuffer c = none →
        decrypt c pw = .error decryptionFailedMsg) :=
  claim_C5_wrong_password_rejection "hi" "a" "b" (List.replicate 16 0)
    (List.replicate 12 0) (by decide) (by decide) (by decide) (by decide) (by decide)

/-- C10: `encryptDataForSync` returns the `documents` and
`documentFolders` collections of its input unchanged — documents are never
encrypted, placeholder-substituted, or filtered by the column gate (even
when a document belongs to an `isEncrypted` folder); only columns, tasks,
idea columns and ideas are transformed. -/
theorem claim_C10_documents_untouched (data : UserData) (passwords : PasswordMap)
    (salt iv : List Nat) :
    (encryptDataForSync data passwords salt iv).documents = data.documents
    ∧ (encryptDataForSync data passwords salt iv).documentFolders
        = data.documentFolders :=
  ⟨rfl, rfl⟩

/-- C7: the offline queue is a single last-write-wins slot.  A failed
debounced save overwrites the slot (a second failure replaces the first
queued snapshot); `processOfflineQueue` on a non-empty slot re-posts the
queued snapshot, and on success clears the slot, reports `synced` and
returns `true`, while on failure it leaves the slot exactly as it was and
reports `offline`, returning `false`. -/
theorem claim_C7_offline_queue_slot (st : LocalStore) (e : OfflineEntry)
    (u1 u2 : String) (d1 d2 : UserData) (t1 t2 now : Nat) (salt iv : List Nat)
    (h : st.offlineQueue = some e) :
    (queueOfflineData u2 d2 t2 (queueOfflineData u1 d1 t1 st)).offlineQueue
        = some ⟨u2, d2, t2⟩
    ∧ (debouncedSaveFire u1 d1 salt iv now false st).1.offlineQueue = some ⟨u1, d1, now⟩
    ∧ (debouncedSaveFire u1 d1 salt iv now false st).2 = .offline
    ∧ processOfflineQueue salt iv now true st
        = ({ offlineQueue := none, backup := none }, [.syncing, .synced], true)
    ∧ processOfflineQueue salt iv now false st
        = ({ st with backup := some ⟨e.userId, e.data, now⟩ }, [.syncing, .offline], false) := by
  refine ⟨rfl, rfl, rfl, ?_, ?_⟩
  · simp [processOfflineQueue, h, saveUserDataImmediate]
  · simp [processOfflineQueue, h, saveUserDataImmediate]

/-- Witness for C7 with a concretely occupied queue slot. -/
theorem claim_C7_offline_queue_slot_witness :
    ({ offlineQueue := some ⟨"u", ⟨[], [], [], [], [], []⟩, 1⟩ } : LocalStore).offlineQueue
        = some ⟨"u", ⟨[], [], [], [], [], []⟩, 1⟩
    ∧ (processOfflineQueue [] [] 2 true
        { offlineQueue := some ⟨"u", ⟨[], [], [], [], [], []⟩, 1⟩ }
        = ({ offlineQueue := none, backup := none }, [.syncing, .synced], true)) := by
  have h := claim_C7_offline_queue_slot
    { offlineQueue := some ⟨"u", ⟨[], [], [], [], [], []⟩, 1⟩ }
    ⟨"u", ⟨[], [], [], [], [], []⟩, 1⟩ "a" "b" ⟨[], [], [], [], [], []⟩
    ⟨[], [], [], [], [], []⟩ 0 0 2 [] [] rfl
  exact ⟨rfl, h.2.2.2.1⟩

/-- C9: a manual refresh that successfully fetches a snapshot whose six
collections are all empty leaves the in-memory state and the per-user
cache entry completely unchanged and reports `synced`; local state is
replaced (and the cache rewritten) only when some fetched collection is
non-empty. -/
theorem claim_C9_refresh_empty_cloud_noop (user : String) (localSt : LocalState)
    (cache : Option UserData) (status : SyncStatus) (d : UserData)
    (hc : d.columns = []) (ht : d.tasks = []) (hic : d.ideaColumns = [])
    (hi : d.ideas = []) (hd : d.documents = []) (hf : d.documentFolders = []) :
    handleRefresh (some user) false false (.ok (some d)) localSt cache status
      = (localSt, cache, .synced) := by
  unfold handleRefresh
  simp [hasCloudData, hc, ht, hic, hi, hd, hf]

/-- Witness for C9 at a concrete empty snapshot. -/
theorem claim_C9_refresh_empty_cloud_noop_witness :
    handleRefresh (some "u") false false (.ok (some ⟨[], [], [], [], [], []⟩))
        ⟨[⟨"c1", none, "T", false, none⟩], [], [], [], [], []⟩ none .idle
      = (⟨[⟨"c1", none, "T", false, none⟩], [], [], [], [], []⟩, none, .synced) :=
  claim_C9_refresh_empty_cloud_noop "u" _ none .idle ⟨[], [], [], [], [], []⟩
    rfl rfl rfl rfl rfl rfl

/-- C6 counterexample: edit entity A, then entity B inside A's debounce
window, then let the timer fire: only B's write is issued — A's pending
write is cancelled by B's scheduling, contradicting the claim that A's
write still fires and that one write per edited entity is issued. -/
theorem claim_C6_cex_shared_timer :
    (debounceRun none [.schedule ⟨"tasks", "recA", "a1"⟩,
        .schedule ⟨"tasks", "recB", "b1"⟩, .timerFire]).2
      = [⟨"tasks", "recB", "b1"⟩]
    ∧ (⟨"tasks", "recA", "a1"⟩ : PendingWrite) ∉
        (debounceRun none [.schedule ⟨"tasks", "recA", "a1"⟩,
          .schedule ⟨"tasks", "recB", "b1"⟩, .timerFire]).2 := by
  decide

/-- C6 amended: the debounce timer is shared across entities
(`syncTimerRef` is a single slot and each `debouncedSync` call clears the
previous timer), so a burst of edits — to any mix of entities — followed
by a quiet period issues exactly one remote write, the one for the last
edit; earlier pending writes, including those of other entities, are
cancelled. -/
theorem claim_C6_amended_last_write_only (pending : Option PendingWrite)
    (ws : List PendingWrite) (h : ws ≠ []) :
    (debounceRun pending (ws.map DebounceEv.schedule ++ [.timerFire])).2
      = [ws.getLast h] := by
  induction ws generalizing pending with
  | nil => exact absurd rfl h
  | cons w ws ih =>
    cases ws with
    | nil => rfl
    | cons w2 ws2 =>
      show (debounceRun (some w) ((w2 :: ws2).map DebounceEv.schedule ++ [.timerFire])).2
        = _
      rw [ih (some w) (by simp)]
      rfl

/-- Witness for the amended C6 at a concrete two-entity burst. -/
theorem claim_C6_amended_last_write_only_witness :
    (debounceRun none ([⟨"tasks", "recA", "a1"⟩, ⟨"ideas", "recB", "b1"⟩].map
        DebounceEv.schedule ++ [.timerFire])).2
      = [⟨"ideas", "recB", "b1"⟩] :=
  claim_C6_amended_last_write_only none
    [⟨"tasks", "recA", "a1"⟩, ⟨"ideas", "recB", "b1"⟩] (by decide)

/-- C8: an entity whose `recordId` is absent gets no remote update/delete
call from the incremental mutation handlers, while the optimistic local
mutation is still applied: `deleteTask` and `updateTask` issue no call for
a task without a `recordId`, and `deleteColumn` issues no call for a
column without a `recordId`, its remaining calls being deletes for
cascaded tasks that do carry one. -/
theorem claim_C8_no_remote_call_without_recordId (user : Option String)
    (columns : List Column) (tasks : List Task) (unlocked : PasswordMap)
    (tid cid : Id) (content : String) (salt iv : List Nat) (t : Task) (c : Column)
    (ht : tasks.find? (fun x => x.id == tid) = some t) (htr : t.recordId = none)
    (hc : columns.find? (fun x => x.id == cid) = some c) (hcr : c.recordId = none) :
    deleteTaskH user tasks tid = (tasks.filter (fun x => !(x.id == tid)), [])
    ∧ updateTaskH user columns unlocked tasks tid content salt iv
        = (tasks.map (fun x => if x.id == tid then { x with content := content } else x), [])
    ∧ (∀ call ∈ (deleteColumnH user columns tasks cid).2.2,
        ∃ rid, call = RemoteCall.deleteC "tasks" rid
          ∧ ∃ tk ∈ tasks, tk.columnId = cid ∧ tk.recordId = some rid)
    ∧ (deleteColumnH user columns tasks cid).1 = columns.filter (fun x => !(x.id == cid))
    ∧ (deleteColumnH user columns tasks cid).2.1
        = tasks.filter (fun x => !(x.columnId == cid)) := by
  refine ⟨?_, ?_, ?_, rfl, rfl⟩
  · unfold deleteTaskH
    cases user <;> simp [ht, htr]
  · unfold updateTaskH
    cases user <;> simp [ht, htr]
  · intro call hcall
    cases user with
    | none => simp [deleteColumnH] at hcall
    | some u =>
      simp only [deleteColumnH, hc, hcr, List.nil_append, List.mem_filterMap] at hcall
      obtain ⟨tk, htk, hmap⟩ := hcall
      obtain ⟨htk1, htk2⟩ := List.mem_filter.mp htk
      cases hrid : tk.recordId with
      | none => rw [hrid] at hmap; exact absurd hmap (by simp)
      | some rid =>
        rw [hrid] at hmap
        exact ⟨rid, (Option.some_inj.mp hmap).symm, tk, htk1, by simpa using htk2, hrid⟩

/-- Witness for C8 at a concrete never-synced task and column. -/
theorem claim_C8_no_remote_call_without_recordId_witness :
    deleteTaskH (some "u") [⟨"t1", none, "c1", "x", false⟩] "t1" = ([], [])
    ∧ (deleteColumnH (some "u") [⟨"c1", none, "T", false, none⟩]
        [⟨"t1", none, "c1", "x", false⟩] "c1").2.2 = [] := by
  have h := claim_C8_no_remote_call_without_recordId (some "u")
    [⟨"c1", none, "T", false, none⟩] [⟨"t1", none, "c1", "x", false⟩] []
    "t1" "c1" "y" [] [] ⟨"t1", none, "c1", "x", false⟩ ⟨"c1", none, "T", false, none⟩
    (by decide) rfl (by decide) rfl
  refine ⟨by rw [h.1]; decide, by decide⟩

/-- C2: the replace-then-delete full-snapshot sync.  In every execution of
`handlePost` the action trace has all creates before any delete (there is
a cut with no deletes before it and no creates after it), and in every
execution in which some create call fails, the handler aborts, no delete
call appears in the trace, and every previously existing remote record of
every table survives in the resulting state. -/
theorem claim_C2_replace_then_delete (env : PostEnv) (userId : String)
    (data : UserData) (sv now : Nat) (st : RemoteState) :
    (∃ n, ((handlePost env userId data sv now st).2.2.take n).all (fun a => !a.isDelete)
        ∧ ((handlePost env userId data sv now st).2.2.drop n).all (fun a => !a.isCreate))
    ∧ ((∃ t, env.createOk t = false) →
        (handlePost env userId data sv now st).1 = false
        ∧ (∀ a ∈ (handlePost env userId data sv now st).2.2, a.isDelete = false)
        ∧ (∀ t r, r ∈ st t → r ∈ (handlePost env userId data sv now st).2.1 t)) := by
  by_cases hall : allTbls.all (fun t => env.createOk t) = true
  · have hc : ∀ t, env.createOk t = true := fun t =>
      List.all_eq_true.mp hall t (by cases t <;> simp [allTbls])
    constructor
    · refine ⟨10, ?_, ?_⟩ <;>
        simp [handlePost, allTbls, hc, SyncAction.isDelete, SyncAction.isCreate]
    · rintro ⟨t0, ht0⟩
      rw [hc t0] at ht0
      cases ht0
  · have hne : allTbls.all (fun t => env.createOk t) = false := by
      simpa using hall
    refine ⟨⟨10, ?_, ?_⟩, fun _ => ⟨?_, ?_, ?_⟩⟩ <;> (unfold handlePost; rw [hne])
    · simp [allTbls, SyncAction.isDelete]
    · simp [allTbls, SyncAction.isCreate]
    · simp
    · intro a ha
      simp [allTbls] at ha
      rcases ha with rfl | rfl | rfl | rfl | rfl | rfl | rfl | rfl | rfl | rfl <;> rfl
    · intro t r hr
      simp only [Bool.false_eq_true, if_false]
      exact List.mem_append_left _ hr

/-- Witness for C2 with a concretely failing create. -/
theorem claim_C2_replace_then_delete_witness :
    (handlePost ⟨fun _ => false, fun _ => 0, fun _ _ => "r"⟩ "u"
        ⟨[], [], [], [], [], []⟩ 0 0 (fun _ => [])).1 = false :=
  ((claim_C2_replace_then_delete ⟨fun _ => false, fun _ => 0, fun _ _ => "r"⟩ "u"
    ⟨[], [], [], [], [], []⟩ 0 0 (fun _ => [])).2 ⟨.columnsT, rfl⟩).1

/-- C1: evaluation at the failing input.  A snapshot holding an encrypted
column and a task of that column with untagged plaintext content, saved
with an empty (or absent) session password map: `saveUserDataImmediate`
skips `encryptDataForSync` entirely (`passwords && passwords.size > 0`),
so the POSTed payload is the snapshot itself and contains the plaintext
task — although the column is flagged encrypted, no password for it is in
the map, and the content is untagged — while `encryptDataForSync` itself,
run on the same snapshot with any non-empty map, excludes that task. -/
theorem claim_C1_plaintext_leak_eval :
    savePayload
        ⟨[⟨"c1", none, "Diary", true, some "s:h"⟩],
          [⟨"t1", none, "c1", "secret", false⟩], [], [], [], []⟩
        (some []) [] []
      = ⟨[⟨"c1", none, "Diary", true, some "s:h"⟩],
          [⟨"t1", none, "c1", "secret", false⟩], [], [], [], []⟩
    ∧ savePayload
        ⟨[⟨"c1", none, "Diary", true, some "s:h"⟩],
          [⟨"t1", none, "c1", "secret", false⟩], [], [], [], []⟩
        none [] []
      = ⟨[⟨"c1", none, "Diary", true, some "s:h"⟩],
          [⟨"t1", none, "c1", "secret", false⟩], [], [], [], []⟩
    ∧ (⟨"t1", none, "c1", "secret", false⟩ : Task) ∈
        (savePayload
          ⟨[⟨"c1", none, "Diary", true, some "s:h"⟩],
            [⟨"t1", none, "c1", "secret", false⟩], [], [], [], []⟩
          (some []) [] []).tasks
    ∧ isEncryptedColumnId
        ⟨[⟨"c1", none, "Diary", true, some "s:h"⟩],
          [⟨"t1", none, "c1", "secret", false⟩], [], [], [], []⟩ "c1" = true
    ∧ pmHas [] "c1" = false
    ∧ isEncryptedContent "secret" = false
    ∧ (encryptDataForSync
        ⟨[⟨"c1", none, "Diary", true, some "s:h"⟩],
          [⟨"t1", none, "c1", "secret", false⟩], [], [], [], []⟩
        [("other", "p")] [] []).tasks = [] := by
  decide

/-! ## Unlock-path lemmas (C3) -/

/-- Best-effort task decryption keeps the task id. -/
theorem tryDecryptTask_id (password : String) (t : Task) :
    (tryDecryptTask password t).id = t.id := by
  unfold tryDecryptTask
  split
  · split <;> rfl
  · rfl

/-- Best-effort idea decryption keeps the idea id. -/
theorem tryDecryptIdea_id (password : String) (i : Idea) :
    (tryDecryptIdea password i).id = i.id := by
  unfold tryDecryptIdea
  split
  · split <;> rfl
  · rfl

/-- Looking an entity up by id in the transformed filtered sublist: under
distinct ids, an entity passing the filter finds its own transform and any
other entity finds nothing. -/
theorem find_of_filter_map {α : Type} (idf : α → Id) (p : α → Bool) (g : α → α)
    (hg : ∀ a, idf (g a) = idf a) :
    ∀ l : List α, (l.map idf).Nodup → ∀ t ∈ l,
      ((l.filter p).map g).find? (fun dt => idf dt == idf t)
        = if p t then some (g t) else none := by
  intro l
  induction l with
  | nil => intro _ t ht; exact absurd ht (List.not_mem_nil t)
  | cons a l ih =>
    intro hnd t ht
    obtain ⟨hnotmem, hndl⟩ : (∀ x ∈ l, ¬idf x = idf a) ∧ (l.map idf).Nodup := by
      simpa using hnd
    rcases List.mem_cons.mp ht with rfl | htl
    · by_cases hpa : p t
      · rw [List.filter_cons_of_pos hpa, List.map_cons,
          List.find?_cons_of_pos _ (by simp [hg]), if_pos hpa]
      · rw [if_neg hpa, List.filter_cons_of_neg (by simpa using hpa)]
        apply List.find?_eq_none.mpr
        intro x hx
        obtain ⟨u, hu, rfl⟩ := List.mem_map.mp hx
        have hul : u ∈ l := List.mem_of_mem_filter hu
        simp only [hg, beq_iff_eq]
        intro he
        exact hnotmem u hul he
    · have hne : idf a ≠ idf t := fun he =>
        hnotmem t htl he.symm
      by_cases hpa : p a
      · rw [List.filter_cons_of_pos hpa, List.map_cons,
          List.find?_cons_of_neg _ (by simp [hg, hne]), ih hndl t htl]
      · rw [List.filter_cons_of_neg (by simpa using hpa)]
        exact ih hndl t htl

/-- C3 counterexample: the claim asserts the document-folder unlock path
splits the verifier on `:`, recomputes the hash and stores the password
iff it matches.  Concretely, for the verifier `":AABh"` — whose salt half
is `""` and hash half `"AABh"` — the candidate password `"a"` recomputes
exactly `"AABh"`, so the claimed behaviour stores the password; the code
instead passes the whole (un-split) verifier to `generatePasswordHash`,
whose base64 decode throws on the `:`, and the unlock aborts without
storing anything. -/
theorem claim_C3_cex_folder_unlock_no_verify :
    generatePasswordHash "a" "" = some "AABh"
    ∧ jsSplit ":AABh" ':' = ["", "AABh"]
    ∧ unlockDocumentFolderH ⟨"f1", none, "Diary", true, some ":AABh"⟩ "a" [] = none := by
  decide

/-- C3 amended: the column unlock path behaves exactly as claimed — split
the verifier on `:`, recompute `generatePasswordHash(pw, salt)`, compare;
iff equal the password is stored and every loaded task/idea of the column
is decrypted in place best-effort (entities whose decryption throws are
left unchanged); on mismatch it returns `false` with the map unchanged.
The document-folder path does not follow the protocol: it passes the
whole verifier (never split) to the hash routine and stores the password
without any comparison whenever that call succeeds, aborting with nothing
stored when it throws. -/
theorem claim_C3_amended_unlock_verifier (col : Column) (password : String)
    (unlocked : PasswordMap) (tasks : List Task) (ideas : List Idea)
    (es salt storedHash computed : String) (folder : DocumentFolder)
    (fpw ver : String) (funlocked : PasswordMap)
    (hes : col.encryptionSalt = some es)
    (hsp : jsSplit es ':' = [salt, storedHash])
    (hhash : generatePasswordHash password salt = some computed)
    (hndT : (tasks.map Task.id).Nodup)
    (hndI : (ideas.map Idea.id).Nodup)
    (hfpw : fpw ≠ "")
    (hver : folder.encryptionSalt = some ver) :
    (computed = storedHash →
      unlockColumnH col password unlocked tasks ideas
        = some (true, pmSet unlocked col.id password,
            tasks.map (fun t => if t.columnId == col.id then tryDecryptTask password t else t),
            ideas.map (fun i => if i.columnId == col.id then tryDecryptIdea password i else i)))
    ∧ (computed ≠ storedHash →
        unlockColumnH col password unlocked tasks ideas
          = some (false, unlocked, tasks, ideas))
    ∧ unlockDocumentFolderH folder fpw funlocked
        = (generatePasswordHash fpw ver).map (fun _ => pmSet funlocked folder.id fpw) := by
  refine ⟨?_, ?_, ?_⟩
  · intro h
    subst h
    have htasks : ∀ t ∈ tasks,
        (match ((tasks.filter (fun x => x.columnId == col.id)).map
            (tryDecryptTask password)).find? (fun dt => dt.id == t.id) with
          | some dt => dt
          | none => t)
        = if t.columnId == col.id then tryDecryptTask password t else t := by
      intro t ht
      rw [find_of_filter_map Task.id _ _ (tryDecryptTask_id password) tasks hndT t ht]
      by_cases hp : t.columnId == col.id <;> simp [hp]
    have hideas : ∀ i ∈ ideas,
        (match ((ideas.filter (fun x => x.columnId == col.id)).map
            (tryDecryptIdea password)).find? (fun di => di.id == i.id) with
          | some di => di
          | none => i)
        = if i.columnId == col.id then tryDecryptIdea password i else i := by
      intro i hi
      rw [find_of_filter_map Idea.id _ _ (tryDecryptIdea_id password) ideas hndI i hi]
      by_cases hp : i.columnId == col.id <;> simp [hp]
    simp only [unlockColumnH, hes, hsp, hhash, beq_self_eq_true, if_true]
    rw [List.map_congr_left htasks, List.map_congr_left hideas]
  · intro h
    simp only [unlockColumnH, hes, hsp, hhash]
    rw [if_neg (by simpa using h)]
  · unfold unlockDocumentFolderH
    rw [if_neg (by simpa using hfpw), hver]
    cases hgen : generatePasswordHash fpw ver <;> simp [hgen]

/-- Witness for the amended C3: a matching column unlock stores the
password, and a folder unlock with a colon-free verifier stores the
password without verification. -/
theorem claim_C3_amended_unlock_verifier_witness :
    unlockColumnH ⟨"c1", none, "Diary", true, some ":AABh"⟩ "a" [] [] []
      = some (true, [("c1", "a")], [], [])
    ∧ unlockDocumentFolderH ⟨"f1", none, "F", true, some "AAAA"⟩ "x" []
      = some [("f1", "x")] := by
  have h := claim_C3_amended_unlock_verifier
    ⟨"c1", none, "Diary", true, some ":AABh"⟩ "a" [] [] []
    ":AABh" "" "AABh" "AABh" ⟨"f1", none, "F", true, some "AAAA"⟩ "x" "AAAA" []
    rfl (by decide) (by decide) (by decide) (by decide) (by decide) rfl
  refine ⟨by simpa using h.1 rfl, ?_⟩
  rw [h.2.2]
  decide

end ZenTask
